import Mathlib

/-!
Verification development for the cathyAI repository.

The definitions below are shallow embeddings of the Python functions in
`characters_api/app.py` (directory service), `app.py` (Chainlit consumer:
client cache manager and streaming delta reconstructor) and
`webbui_chat/app.py` (an identical copy of the consumer's `stream_chat`).
Python dictionaries parsed from JSON are modelled by the `Json` type,
filesystem directories by lookup functions `String → Option _`, and the
HTTP transport by explicit response values handed to the embedded
functions.
-/

namespace CathyAI

/-- JSON values as produced by `json.loads`; numbers are modelled as
integers (no claim depends on fractional values). An object is an
association list of fields with the dictionary's insertion order. -/
inductive Json where
  | null : Json
  | bool (b : Bool) : Json
  | num (n : Int) : Json
  | str (s : String) : Json
  | arr (xs : List Json) : Json
  | obj (fields : List (String × Json)) : Json

/-! Python string operations, modelled on the code-point sequence
(`String.data`): `len`, slicing, `startswith`, `lower`, `strip` and
substring membership (`in`). -/

/-- Python `len(s)` (code points). -/
def pyLen (s : String) : Nat := s.data.length

/-- Python `s[n:]`. -/
def pyDrop (s : String) (n : Nat) : String := ⟨s.data.drop n⟩

/-- Python `s.startswith(pre)`. -/
def pyStartsWith (s pre : String) : Bool := pre.data.isPrefixOf s.data

/-- Python `s.lower()`. -/
def pyLower (s : String) : String := ⟨s.data.map Char.toLower⟩

/-- Strip leading and trailing whitespace from a code-point list. -/
def trimList (l : List Char) : List Char :=
  ((l.dropWhile Char.isWhitespace).reverse.dropWhile Char.isWhitespace).reverse

/-- Python `s.strip()`. -/
def pyTrim (s : String) : String := ⟨trimList s.data⟩

/-- `dict.get(k)` on an association list: first binding wins. -/
def lookupField : List (String × Json) → String → Option Json
  | [], _ => none
  | (k', v) :: rest, k => if k' = k then some v else lookupField rest k

/-- `data.get(k)` (returns `None` when `data` is not a dict or lacks `k`). -/
def objGet : Json → String → Option Json
  | .obj fields, k => lookupField fields k
  | _, _ => none

/-- `d[k] = v`: replace the existing binding in place, else append. -/
def setField : List (String × Json) → String → Json → List (String × Json)
  | [], k, v => [(k, v)]
  | (k', v') :: rest, k, v =>
    if k' = k then (k, v) :: rest else (k', v') :: setField rest k v

/-- `d[k] = v` on a `Json` object (identity on non-objects). -/
def objSet : Json → String → Json → Json
  | .obj fields, k, v => .obj (setField fields k v)
  | j, _, _ => j

/-- `d.pop(k, None)`: drop the binding for `k`. -/
def popField : List (String × Json) → String → List (String × Json)
  | [], _ => []
  | (k', v') :: rest, k =>
    if k' = k then popField rest k else (k', v') :: popField rest k

/-- `d.pop(k, None)` on a `Json` object (identity on non-objects). -/
def objPop : Json → String → Json
  | .obj fields, k => .obj (popField fields k)
  | j, _ => j

/-- Python truthiness of a JSON value (`if value:`). -/
def jsonTruthy : Json → Bool
  | .null => false
  | .bool b => b
  | .num n => n != 0
  | .str s => s ≠ ""
  | .arr xs => !xs.isEmpty
  | .obj fields => !fields.isEmpty

/-- Python `x or y` for an optional JSON value (`data.get(k) or dflt`). -/
def pyOr (v : Option Json) (dflt : Json) : Json :=
  match v with
  | some j => if jsonTruthy j then j else dflt
  | none => dflt

/-- Python `x or y` for an optional string (`headers.get(k) or dflt`). -/
def pyOrStr (v : Option String) (dflt : String) : String :=
  match v with
  | some s => if s ≠ "" then s else dflt
  | none => dflt

/-! ## Directory service: `characters_api/app.py`

A directory on disk is modelled as a lookup `String → Option _`: `some`
exactly for the names for which `(directory / name)` exists and is a
regular file. -/

/-- A directory's readable text files, by filename. -/
def Dir := String → Option String

/-- An `HTTPException(status_code=..., detail=...)`. -/
structure HErr where
  status : Nat
  detail : String

/-- Worker for `containsSub`: walk the suffixes of the haystack. -/
def containsSubGo (pat : List Char) : List Char → Bool
  | [] => pat.isPrefixOf []
  | c :: rest => pat.isPrefixOf (c :: rest) || containsSubGo pat rest

/-- Python substring test `pat in s`. -/
def containsSub (s pat : String) : Bool := containsSubGo pat.data s.data

/-- `safe_filename` (lines 37-45): non-empty and containing no "/", "\\"
or "..". -/
def safe_filename (name : String) : Bool :=
  name ≠ "" && !containsSub name "/" && !containsSub name "\\" && !containsSub name ".."

/-- `read_json` (lines 48-60), over the parse outcome of the named file's
text: a failure raises a 500 `HTTPException`. -/
def read_json (name : String) (parsed : Except String Json) : Except HErr Json :=
  match parsed with
  | .ok j => .ok j
  | .error e => .error ⟨500, "Failed to parse " ++ name ++ ": " ++ e⟩

/-- `maybe_resolve_file` (lines 63-81). `value` is the result of
`data.get(...)` (`none` when the key is absent); non-strings and blank
strings resolve to `""`; an existing file's content is returned stripped;
otherwise the stripped value itself is returned as inline text. -/
def maybe_resolve_file (value : Option Json) (directory : Dir) : String :=
  match value with
  | some (.str s) =>
    if pyTrim s = "" then ""
    else
      match directory (pyTrim s) with
      | some content => pyTrim content
      | none => pyTrim s
  | _ => ""

/-- Loop of `dedupe_case_insensitive` (lines 84-99); `seen` holds the
lowercased keys already emitted. -/
def dedupeGo (seen : List String) : List String → List String
  | [] => []
  | s :: rest =>
    if pyLower s ∈ seen then dedupeGo seen rest
    else s :: dedupeGo (pyLower s :: seen) rest

/-- `dedupe_case_insensitive` (lines 84-99). -/
def dedupe_case_insensitive (items : List String) : List String :=
  dedupeGo [] items

/-- A string-field contribution to `build_aliases`: `data.get(k)` when it
is a non-blank string, stripped. -/
def strAlias (data : Json) (k : String) : List String :=
  match objGet data k with
  | some (.str s) => if pyTrim s = "" then [] else [pyTrim s]
  | _ => []

/-- A list-field contribution to `build_aliases`: the non-blank string
entries of the value when it is a list, stripped. -/
def listAlias (v : Option Json) : List String :=
  match v with
  | some (.arr xs) =>
    xs.filterMap fun x =>
      match x with
      | .str s => if pyTrim s = "" then none else some (pyTrim s)
      | _ => none
  | _ => []

/-- The `matrix.aliases` contribution to `build_aliases` (lines 126-130). -/
def matrixAliases (data : Json) : List String :=
  match objGet data "matrix" with
  | some (.obj m) => listAlias (lookupField m "aliases")
  | _ => []

/-- The alias list collected by `build_aliases` (lines 112-133) before
deduplication: name, nickname, `nicknames`, `aliases`, the matrix block's
aliases, and always the id. -/
def collectAliases (data : Json) (char_id : String) : List String :=
  strAlias data "name" ++ strAlias data "nickname" ++
    listAlias (objGet data "nicknames") ++ listAlias (objGet data "aliases") ++
    matrixAliases data ++ [char_id]

/-- `build_aliases` (lines 102-135). -/
def build_aliases (data : Json) (char_id : String) : List String :=
  dedupe_case_insensitive (collectAliases data char_id)

/-- The avatar URL computed by `attach_avatar_url` (lines 138-151) and the
inline copies in `list_characters` and `get_character`; `hostUrl` is the
`HOST_URL` configuration value. -/
def avatarUrlOf (hostUrl : String) (data : Json) : Json :=
  match objGet data "avatar" with
  | some (.str a) =>
    if pyTrim a ≠ "" then
      .str (if hostUrl ≠ "" then hostUrl ++ "/avatars/" ++ pyTrim a
            else "/avatars/" ++ pyTrim a)
    else .null
  | _ => .null

/-- `attach_avatar_url` (lines 138-151): sets `avatar_url` on the record. -/
def attach_avatar_url (hostUrl : String) (data : Json) : Json :=
  objSet data "avatar_url" (avatarUrlOf hostUrl data)

/-- `file_fingerprint` (lines 154-166): `stat` is
`some (mtimeSeconds, sizeBytes)` for an existing path and `none` for a
missing one (`FileNotFoundError`). -/
def file_fingerprint (name : String) (stat : Option (Int × Nat)) : String :=
  match stat with
  | some (mtime, size) => name ++ ":" ++ toString mtime ++ ":" ++ toString size
  | none => name ++ ":missing"

/-- `resolve_character` (lines 220-255): returns the mutated record.
`promptDir` and `infoDir` are the prompt and info directories. -/
def resolve_character (data : Json) (char_id : String) (promptDir infoDir : Dir)
    (hostUrl : String) : Json :=
  let system := maybe_resolve_file (objGet data "system_prompt") promptDir
  let background := maybe_resolve_file (objGet data "character_background") infoDir
  let prompts0 : List (String × Json) :=
    [("system", .str system), ("background", .str background)]
  let data1 :=
    objSet (objSet data "system_prompt" (.str system))
      "character_background" (.str background)
  let step2 : Json × List (String × Json) :=
    match objGet data1 "matrix" with
    | some (.obj m) =>
      match lookupField m "append_rules" with
      | some (.str ar) =>
        if pyTrim ar ≠ "" then
          let art := maybe_resolve_file (some (.str ar)) promptDir
          (objSet data1 "matrix" (.obj (setField m "append_rules_text" (.str art))),
            prompts0 ++ [("matrix_append_rules", .str art)])
        else (objSet data1 "matrix" (.obj m), prompts0)
      | _ => (objSet data1 "matrix" (.obj m), prompts0)
    | _ => (data1, prompts0)
  let data3 := objSet step2.1 "prompts" (.obj step2.2)
  let data4 :=
    objSet data3 "aliases" (.arr ((build_aliases data3 char_id).map .str))
  let data5 := attach_avatar_url hostUrl data4
  objPop data5 "secrets"

/-- One item of the `list_characters` listing (lines 300-323). -/
def listItem (hostUrl char_id : String) (data : Json) : Json :=
  .obj
    [("id", .str char_id),
     ("name", pyOr (objGet data "name") (.str char_id)),
     ("nickname", (objGet data "nickname").getD .null),
     ("model", (objGet data "model").getD .null),
     ("greeting", (objGet data "greeting").getD .null),
     ("avatar", (objGet data "avatar").getD .null),
     ("aliases", .arr ((build_aliases data char_id).map .str)),
     ("avatar_url", avatarUrlOf hostUrl data)]

/-- The listing loop of `list_characters` (lines 299-325), over the sorted
character files given as `(stem, parse outcome)`: the first `read_json`
failure raises out of the loop and aborts the whole endpoint. -/
def list_characters (hostUrl : String) :
    List (String × Except String Json) → Except HErr (List Json)
  | [] => .ok []
  | (stem, parsed) :: rest => do
    let data ← read_json (stem ++ ".json") parsed
    let item := listItem hostUrl stem data
    let out ← list_characters hostUrl rest
    return item :: out

/-- The view selector of `get_character`. -/
inductive View where
  | publicView
  | privateView

/-- The `public_item` dict of `get_character` (lines 365-379). -/
def public_item (hostUrl char_id : String) (data : Json) : Json :=
  .obj
    [("id", .str char_id),
     ("name", pyOr (objGet data "name") (.str char_id)),
     ("nickname", (objGet data "nickname").getD .null),
     ("model", (objGet data "model").getD .null),
     ("greeting", (objGet data "greeting").getD .null),
     ("avatar", (objGet data "avatar").getD .null),
     ("aliases", .arr ((build_aliases data char_id).map .str)),
     ("avatar_url", avatarUrlOf hostUrl data)]

/-- The response body of `get_character` (lines 365-386), after the 404
and ETag/304 handling: only the private view resolves the prompt and info
files. -/
def get_character_body (hostUrl char_id : String) (data : Json) (view : View)
    (promptDir infoDir : Dir) : Json :=
  match view with
  | .publicView => public_item hostUrl char_id data
  | .privateView =>
    objSet (resolve_character data char_id promptDir infoDir hostUrl)
      "id" (.str char_id)

/-- File metadata as `stat` reports it. -/
structure FileMeta where
  mtime : Int
  size : Nat

/-- A successful `get_avatar` outcome: a 304 or the streamed file. -/
inductive AvatarResp where
  | notModified (etag : String)
  | fileResp (name : String) (etag : String)

/-- `get_avatar` (lines 389-420): `avatarDir` maps a filename to its stat
exactly when the path exists and is a regular file; `inm` is the
`If-None-Match` request header. -/
def get_avatar (filename : String) (inm : Option String)
    (avatarDir : String → Option FileMeta) : Except HErr AvatarResp :=
  if !safe_filename filename then .error ⟨400, "Invalid filename"⟩
  else
    match avatarDir filename with
    | none => .error ⟨404, "Avatar not found"⟩
    | some meta =>
      let etag := "\"" ++ file_fingerprint filename (some (meta.mtime, meta.size)) ++ "\""
      match inm with
      | some v =>
        if v ≠ "" ∧ pyTrim v = etag then .ok (.notModified etag)
        else .ok (.fileResp filename etag)
      | none => .ok (.fileResp filename etag)

/-! ## Client cache manager: `app.py` (Chainlit consumer)

The HTTP transport is modelled by a function from the `If-None-Match`
header the code sends (for a fixed URL) to the response; each embedded
fetch also returns the log of requests it issued, identified by their
`If-None-Match` headers, so "exactly one unconditional retry" is a
statement about that log. -/

/-- An `httpx` response: status code, optional `ETag` header, JSON body. -/
structure Resp where
  status : Nat
  etag : Option String
  body : Json

/-- `resp.raise_for_status()`: `httpx` raises `HTTPStatusError` for every
non-2xx status. -/
def raise_for_status (r : Resp) : Except HErr Resp :=
  if 200 ≤ r.status ∧ r.status < 300 then .ok r
  else .error ⟨r.status, "HTTP status error"⟩

/-- Update one key of a string-keyed map. -/
def updateMap {α : Type} (m : String → Option α) (k : String) (v : α) :
    String → Option α :=
  fun k' => if k' = k then some v else m k'

/-- The `If-None-Match` header `fetch_character_private` sends (lines
124-126): the stored per-id ETag when present and non-empty. -/
def inmHeader (etags : String → Option String) (char_id : String) : Option String :=
  match etags char_id with
  | some e => if e ≠ "" then some e else none
  | none => none

/-- The tail of `fetch_character_private` (lines 137-141):
`raise_for_status`, store `resp.headers.get("etag") or ""` in the per-id
ETag map, store the body in the per-id cache, return the body. -/
def fcpFinish (char_id : String) (etags : String → Option String)
    (cache : String → Option Json) (resp : Resp) (log : List (Option String)) :
    Except HErr Json × (String → Option String) × (String → Option Json) ×
      List (Option String) :=
  match raise_for_status resp with
  | .error e => (.error e, etags, cache, log)
  | .ok r =>
    let etags' := updateMap etags char_id (pyOrStr r.etag "")
    let cache' := updateMap cache char_id r.body
    (.ok r.body, etags', cache', log)

/-- `fetch_character_private` (lines 112-141): conditional GET with the
stored per-id ETag; on a 304 return the cached entry if it is truthy, else
fall back to one more GET without `If-None-Match`; any other response goes
straight to `raise_for_status` and the cache update. Returns
(result, ETag map, cache map, request log). -/
def fetch_character_private (char_id : String)
    (etags : String → Option String) (cache : String → Option Json)
    (net : Option String → Resp) :
    Except HErr Json × (String → Option String) × (String → Option Json) ×
      List (Option String) :=
  let inm0 := inmHeader etags char_id
  let resp1 := net inm0
  if resp1.status = 304 then
    match cache char_id with
    | some cached =>
      if jsonTruthy cached then (.ok cached, etags, cache, [inm0])
      else fcpFinish char_id etags cache (net none) [inm0, none]
    | none => fcpFinish char_id etags cache (net none) [inm0, none]
  else fcpFinish char_id etags cache resp1 [inm0]

/-- State of the durable list cache: the contents of
`/tmp/characters_cache.etag` and `/tmp/characters_cache.json` (the latter
already parsed), `none` when the file does not exist. -/
structure ListCacheState where
  etagFile : Option String
  cacheFile : Option Json

/-- `load_cached_etag` (lines 95-101). -/
def load_cached_etag (st : ListCacheState) : String :=
  match st.etagFile with
  | some t => pyTrim t
  | none => ""

/-- `load_cached_characters` (lines 85-93). -/
def load_cached_characters (st : ListCacheState) : Json :=
  match st.cacheFile with
  | some chars => chars
  | none => .arr []

/-- `save_cached_etag` (lines 103-110): writes only truthy (non-empty)
values. -/
def save_cached_etag (st : ListCacheState) (etag : String) : ListCacheState :=
  if etag ≠ "" then { st with etagFile := some (pyTrim etag) } else st

/-- The `If-None-Match` header `fetch_characters_list` sends (lines
64-66): the stored ETag when present and non-empty. -/
def listInmHeader (st : ListCacheState) : Option String :=
  if load_cached_etag st ≠ "" then some (load_cached_etag st) else none

/-- `fetch_characters_list` (lines 52-83): conditional GET with the
durable ETag; 304 serves the durable payload; otherwise
`raise_for_status`, then `save_cached_etag(resp.headers.get("etag", ""))`
and an unconditional rewrite of the durable payload with
`data.get("characters", [])`. -/
def fetch_characters_list (st : ListCacheState) (net : Option String → Resp) :
    Except HErr Json × ListCacheState :=
  let inm0 := listInmHeader st
  let resp := net inm0
  if resp.status = 304 then (.ok (load_cached_characters st), st)
  else
    match raise_for_status resp with
    | .error e => (.error e, st)
    | .ok r =>
      let new_etag := match r.etag with | some e => e | none => ""
      let st1 := save_cached_etag st new_etag
      let chars := (objGet r.body "characters").getD (.arr [])
      let st2 := { st1 with cacheFile := some chars }
      (.ok chars, st2)

/-! ## Streaming delta reconstructor (`stream_chat`, `app.py` lines 186-218
and the identical `webbui_chat/app.py` lines 80-112)

A cumulative-content event is the string found at `message.content` of one
parsed stream chunk.  The reconstructor keeps the last seen cumulative
string in `last` (initially `""`) and per event emits
`content[len(last):]` when `content.startswith(last)` and otherwise the
whole `content`, yielding only non-empty deltas. -/

/-- The loop body of `stream_chat` over content events, carrying the
`last` cumulative string. -/
def streamDeltasGo (last : String) : List String → List String
  | [] => []
  | content :: rest =>
    let delta := if pyStartsWith content last then pyDrop content (pyLen last) else content
    if delta ≠ "" then delta :: streamDeltasGo content rest
    else streamDeltasGo content rest

/-- Deltas emitted by `stream_chat` for a whole sequence of
cumulative-content events (`last` starts as `""`). -/
def streamDeltas (events : List String) : List String :=
  streamDeltasGo "" events

/-- Written from the claim's words: the delta for one event given the
previously seen cumulative string. -/
def deltaOfPair (prev new : String) : String :=
  if pyStartsWith new prev then pyDrop new (pyLen prev) else new

/-- Written from the claim's words: per event pair the delta, keeping only
non-empty ones; the previous-string sequence is the event list shifted by
one with initial `""`. -/
def deltasSpec (events : List String) : List String :=
  (List.zipWith deltaOfPair ("" :: events) events).filter (· ≠ "")

/-- A message of the conversation (`{"role": ..., "content": ...}`). -/
structure Msg where
  role : String
  content : String

/-- The request payload `{"model": ..., "messages": ..., "stream": ...}`
built by `stream_chat`. -/
structure ChatReq where
  model : String
  messages : List Msg
  stream : Bool

/-- Transport outcome of the streaming call of `stream_chat`: the stream
is established and delivers the given cumulative-content events, or
`raise_for_status` fails (`httpx.HTTPStatusError`), or the request times
out (`httpx.TimeoutException`). -/
inductive StreamOutcome where
  | ok (events : List String)
  | httpStatusError
  | timeout

/-- How a `stream_chat` call ends abnormally. -/
inductive ChatErr where
  | timedOut
  | fallbackTransport (e : String)
  | fallbackStatus (e : HErr)

/-- `stream_chat` (lines 165-234) at the transport level: the emitted
tokens (as JSON values: streamed deltas are strings, the fallback emits
`data["reply"]` verbatim) together with the log of non-streaming fallback
POSTs issued. A timeout is fatal (lines 219-221); an HTTP status error
triggers one non-streaming POST of the same payload with `stream=False`
(lines 222-234), whose `reply` field, when present, is the single emitted
token; a failure of that POST propagates. -/
def stream_chat (model : String) (messages : List Msg)
    (streamRes : StreamOutcome) (post : ChatReq → Except String Resp) :
    Except ChatErr (List Json) × List ChatReq :=
  match streamRes with
  | .ok events => (.ok ((streamDeltas events).map Json.str), [])
  | .timeout => (.error .timedOut, [])
  | .httpStatusError =>
    let req : ChatReq := ⟨model, messages, false⟩
    match post req with
    | .error e => (.error (.fallbackTransport e), [req])
    | .ok resp =>
      match raise_for_status resp with
      | .error e => (.error (.fallbackStatus e), [req])
      | .ok r =>
        match objGet r.body "reply" with
        | some reply => (.ok [reply], [req])
        | none => (.ok [], [req])

theorem streamDeltasGo_eq_spec (last : String) (events : List String) :
    streamDeltasGo last events =
      (List.zipWith deltaOfPair (last :: events) events).filter (· ≠ "") := by
  induction events generalizing last with
  | nil => rfl
  | cons e rest ih =>
    simp only [streamDeltasGo, List.zipWith, List.filter, deltaOfPair]
    by_cases h : (if pyStartsWith e last then pyDrop e (pyLen last) else e) = ""
    · simp [h, ih e]
    · simp [h, ih e]

/-- C1: the reconstructor emits, per cumulative event, the suffix beyond
the previously seen cumulative string when the new string extends it, else
the whole new string, keeping only non-empty deltas; with the two examples
from the spec. -/
theorem C1_delta_reconstruction :
    (∀ events : List String, streamDeltas events = deltasSpec events) ∧
    streamDeltas ["Hi", "Hi there", "Hi there!"] = ["Hi", " there", "!"] ∧
    streamDeltas ["Hello", "Bye"] = ["Hello", "Bye"] := by
  refine ⟨fun events => streamDeltasGo_eq_spec "" events, ?_, ?_⟩ <;> decide

/-- C9: `file_fingerprint` is a pure function of the file's name and its
(mtime-in-seconds, size) metadata — identical observations give identical
fingerprints, with no hidden state to differ across calls or process
restarts — it returns a value (never raises) for a missing path, and the
"missing" fingerprint is distinct from every existing-file fingerprint of
the same name. -/
theorem C9_fingerprint_pure_and_missing_distinct :
    (∀ (name : String) (st₁ st₂ : Option (Int × Nat)), st₁ = st₂ →
      file_fingerprint name st₁ = file_fingerprint name st₂) ∧
    (∀ (name : String) (mtime : Int) (size : Nat),
      file_fingerprint name none ≠ file_fingerprint name (some (mtime, size))) := by
  constructor
  · intro name st₁ st₂ h
    rw [h]
  · intro name mtime size h
    have hd : (file_fingerprint name none).data
        = (file_fingerprint name (some (mtime, size))).data := by rw [h]
    simp only [file_fingerprint, String.data_append, List.append_assoc] at hd
    have h2 := List.append_cancel_left hd
    simp only [List.singleton_append, List.cons.injEq, eq_self_iff_true, true_and] at h2
    have hmem : (':' : Char) ∈ (toString mtime).data ++ ':' :: (toString size).data := by
      simp
    rw [← h2] at hmem
    exact absurd hmem (by decide)

/-- Witness for C9 at a concrete name and metadata. -/
theorem C9_witness :
    file_fingerprint "a.json" (some (3, 5)) = file_fingerprint "a.json" (some (3, 5)) ∧
    file_fingerprint "a.json" none ≠ file_fingerprint "a.json" (some (3, 5)) :=
  ⟨C9_fingerprint_pure_and_missing_distinct.1 "a.json" (some (3, 5)) (some (3, 5)) rfl,
    C9_fingerprint_pure_and_missing_distinct.2 "a.json" 3 5⟩

/-- C10: when the list fetch gets a 200 whose `ETag` header is absent or
empty, `fetch_characters_list` replaces the durable payload with the
response's characters but `save_cached_etag` leaves the stored ETag file
untouched, so the stored etag and payload can describe different list
versions afterwards. -/
theorem C10_empty_etag_keeps_stored_etag :
    ∀ (st : ListCacheState) (net : Option String → Resp) (resp : Resp),
      net (listInmHeader st) = resp → resp.status = 200 →
      resp.etag = none ∨ resp.etag = some "" →
      (fetch_characters_list st net).2.cacheFile
          = some ((objGet resp.body "characters").getD (.arr [])) ∧
      (fetch_characters_list st net).2.etagFile = st.etagFile ∧
      (fetch_characters_list st net).1
          = .ok ((objGet resp.body "characters").getD (.arr [])) := by
  intro st net resp hresp hstatus hetag
  have hne : resp.status ≠ 304 := by rw [hstatus]; decide
  have hok : raise_for_status resp = .ok resp := by
    rw [raise_for_status, if_pos (by rw [hstatus]; exact ⟨by decide, by decide⟩)]
  have hempty : (match resp.etag with | some e => e | none => "") = "" := by
    rcases hetag with h | h <;> rw [h]
  simp only [fetch_characters_list, hresp, if_neg hne, hok, hempty, save_cached_etag,
    if_neg (by simp : ¬("" : String) ≠ "")]
  exact ⟨trivial, trivial, trivial⟩

/-- Witness for C10: a 200 response with no ETag header. -/
theorem C10_witness :
    (fetch_characters_list ⟨some "\"old\"", none⟩
        (fun _ => ⟨200, none, Json.obj [("characters", Json.arr [Json.str "x"])]⟩)).2.etagFile
      = some "\"old\"" ∧
    (fetch_characters_list ⟨some "\"old\"", none⟩
        (fun _ => ⟨200, none, Json.obj [("characters", Json.arr [Json.str "x"])]⟩)).2.cacheFile
      = some (Json.arr [Json.str "x"]) := by
  have h := C10_empty_etag_keeps_stored_etag ⟨some "\"old\"", none⟩
    (fun _ => ⟨200, none, Json.obj [("characters", Json.arr [Json.str "x"])]⟩)
    ⟨200, none, Json.obj [("characters", Json.arr [Json.str "x"])]⟩
    rfl rfl (Or.inl rfl)
  exact ⟨h.2.1, h.1⟩

/-- C5: when the streaming request fails with an HTTP error status,
`stream_chat` issues exactly one non-streaming request carrying the same
model and messages (`stream=False`); a successful fallback response with a
`reply` field makes the reply the single terminal emission; a fallback
failure (transport or status) propagates to the caller; a timeout is
fatal and issues no fallback request at all. -/
theorem C5_streaming_fallback :
    ∀ (model : String) (messages : List Msg) (post : ChatReq → Except String Resp),
      (stream_chat model messages .httpStatusError post).2
          = [⟨model, messages, false⟩] ∧
      (∀ (resp : Resp) (reply : Json),
        post ⟨model, messages, false⟩ = .ok resp → resp.status = 200 →
        objGet resp.body "reply" = some reply →
        (stream_chat model messages .httpStatusError post).1 = .ok [reply]) ∧
      (∀ e, post ⟨model, messages, false⟩ = .error e →
        (stream_chat model messages .httpStatusError post).1
            = .error (.fallbackTransport e)) ∧
      (∀ resp, post ⟨model, messages, false⟩ = .ok resp →
        ¬(200 ≤ resp.status ∧ resp.status < 300) →
        (stream_chat model messages .httpStatusError post).1
            = .error (.fallbackStatus ⟨resp.status, "HTTP status error"⟩)) ∧
      stream_chat model messages .timeout post = (.error .timedOut, []) := by
  intro model messages post
  refine ⟨?_, ?_, ?_, ?_, rfl⟩
  · rcases hp : post ⟨model, messages, false⟩ with e | resp
    · simp [stream_chat, hp]
    · rcases hs : raise_for_status resp with e | r
      · simp [stream_chat, hp, hs]
      · rcases hr : objGet r.body "reply" with _ | reply <;>
          simp [stream_chat, hp, hs, hr]
  · intro resp reply hpost hstatus hreply
    have hok : raise_for_status resp = .ok resp := by
      rw [raise_for_status, if_pos (by rw [hstatus]; exact ⟨by decide, by decide⟩)]
    simp [stream_chat, hpost, hok, hreply]
  · intro e hpost
    simp [stream_chat, hpost]
  · intro resp hpost hbad
    have herr : raise_for_status resp
        = .error ⟨resp.status, "HTTP status error"⟩ := by
      rw [raise_for_status, if_neg hbad]
    simp [stream_chat, hpost, herr]

/-- Witness for C5: a failed stream followed by a fallback reply "hi". -/
theorem C5_witness :
    (stream_chat "m" [] .httpStatusError
        (fun _ => .ok ⟨200, none, Json.obj [("reply", Json.str "hi")]⟩)).1
      = .ok [Json.str "hi"] ∧
    (stream_chat "m" [] .httpStatusError
        (fun _ => .ok ⟨200, none, Json.obj [("reply", Json.str "hi")]⟩)).2
      = [⟨"m", [], false⟩] :=
  ⟨(C5_streaming_fallback "m" []
      (fun _ => .ok ⟨200, none, Json.obj [("reply", Json.str "hi")]⟩)).2.1
      ⟨200, none, Json.obj [("reply", Json.str "hi")]⟩ (Json.str "hi") rfl rfl rfl,
   (C5_streaming_fallback "m" []
      (fun _ => .ok ⟨200, none, Json.obj [("reply", Json.str "hi")]⟩)).1⟩

/-- The request log handed to `fcpFinish` is returned unchanged. -/
theorem fcpFinish_log (char_id : String) (etags : String → Option String)
    (cache : String → Option Json) (resp : Resp) (log : List (Option String)) :
    (fcpFinish char_id etags cache resp log).2.2.2 = log := by
  rw [fcpFinish]
  rcases raise_for_status resp with e | r <;> rfl

/-- C4 counterexample: a cached entry exists (the empty object, as stored
from a 200 whose body was `{}`), the conditional GET returns 304, yet
`fetch_character_private` does not return that entry unchanged: the
truthiness test `if cached:` fails on `{}`, so the code retries without
`If-None-Match` (two logged requests) and here ends in an error instead of
the cached entry. -/
theorem C4_counterexample :
    (fetch_character_private "c" (fun _ => none) (fun _ => some (Json.obj []))
        (fun _ => ⟨304, none, Json.null⟩)).1
      = .error ⟨304, "HTTP status error"⟩ ∧
    (fetch_character_private "c" (fun _ => none) (fun _ => some (Json.obj []))
        (fun _ => ⟨304, none, Json.null⟩)).2.2.2
      = [none, none] ∧
    (fetch_character_private "c" (fun _ => none) (fun _ => some (Json.obj []))
        (fun _ => ⟨304, none, Json.null⟩)).1
      ≠ .ok (Json.obj []) := by
  refine ⟨rfl, rfl, ?_⟩
  intro h
  exact Except.noConfusion h

/-- C4 (amended): on a 304, the cached entry is returned unchanged when it
is truthy (non-empty); when the per-id entry is absent or falsy, exactly
one retry of the same GET is issued without `If-None-Match`, and the
retry's 200 response (with non-empty ETag `e` and body `d`) populates the
per-id ETag map with `e` and the per-id payload cache with `d`. -/
theorem C4_amended_cache_self_healing :
    ∀ (char_id : String) (etags : String → Option String)
      (cache : String → Option Json) (net : Option String → Resp),
      (net (inmHeader etags char_id)).status = 304 →
      (∀ cached, cache char_id = some cached → jsonTruthy cached = true →
        fetch_character_private char_id etags cache net
          = (.ok cached, etags, cache, [inmHeader etags char_id])) ∧
      ((∀ cached, cache char_id = some cached → jsonTruthy cached = false) →
        (fetch_character_private char_id etags cache net).2.2.2
            = [inmHeader etags char_id, none] ∧
        (∀ (e : String) (d : Json), e ≠ "" → net none = ⟨200, some e, d⟩ →
          (fetch_character_private char_id etags cache net).1 = .ok d ∧
          (fetch_character_private char_id etags cache net).2.1 char_id = some e ∧
          (fetch_character_private char_id etags cache net).2.2.1 char_id = some d)) := by
  intro char_id etags cache net h304
  constructor
  · intro cached hc htruthy
    simp only [fetch_character_private, h304, if_pos, hc, htruthy, if_true]
  · intro hfalsy
    have hbranch : fetch_character_private char_id etags cache net
        = fcpFinish char_id etags cache (net none) [inmHeader etags char_id, none] := by
      simp only [fetch_character_private, h304, if_pos]
      rcases hc : cache char_id with _ | cached
      · rfl
      · simp [hfalsy cached hc]
    refine ⟨by rw [hbranch]; exact fcpFinish_log _ _ _ _ _, ?_⟩
    intro e d he hnet
    have hstat : (net none).status = 200 := by rw [hnet]
    have hok : raise_for_status (net none) = .ok (net none) := by
      rw [raise_for_status, if_pos (by rw [hstat]; exact ⟨by decide, by decide⟩)]
    rw [hbranch, fcpFinish, hok, hnet]
    refine ⟨rfl, ?_, ?_⟩
    · simp [updateMap, pyOrStr, he]
    · simp [updateMap]

/-- Witness for C4's amended theorem: a cold id (empty cache) whose
conditional GET yields 304 and whose unconditional retry yields a 200. -/
theorem C4_witness :
    (fetch_character_private "c" (fun _ => some "W/x") (fun _ => none)
        (fun inm => match inm with
          | some _ => ⟨304, none, Json.null⟩
          | none => ⟨200, some "e1", Json.obj [("a", Json.null)]⟩)).1
      = .ok (Json.obj [("a", Json.null)]) ∧
    (fetch_character_private "c" (fun _ => some "W/x") (fun _ => none)
        (fun inm => match inm with
          | some _ => ⟨304, none, Json.null⟩
          | none => ⟨200, some "e1", Json.obj [("a", Json.null)]⟩)).2.2.2
      = [some "W/x", none] := by
  have h := C4_amended_cache_self_healing "c" (fun _ => some "W/x") (fun _ => none)
    (fun inm => match inm with
      | some _ => ⟨304, none, Json.null⟩
      | none => ⟨200, some "e1", Json.obj [("a", Json.null)]⟩) rfl
  have h2 := h.2 (fun cached hc => by cases hc)
  have h3 := h2.2 "e1" (Json.obj [("a", Json.null)]) (by decide) rfl
  exact ⟨h3.1, h2.1⟩

theorem lookupField_setField_self (l : List (String × Json)) (k : String) (v : Json) :
    lookupField (setField l k v) k = some v := by
  induction l with
  | nil => simp [setField, lookupField]
  | cons p rest ih =>
    rcases p with ⟨k₀, v₀⟩
    by_cases h0 : k₀ = k
    · simp [setField, h0, lookupField]
    · simp [setField, h0, lookupField, ih]

theorem lookupField_setField_ne (l : List (String × Json)) (k' : String) (v : Json)
    (k : String) (h : k' ≠ k) :
    lookupField (setField l k' v) k = lookupField l k := by
  induction l with
  | nil => simp [setField, lookupField, h]
  | cons p rest ih =>
    rcases p with ⟨k₀, v₀⟩
    by_cases h0 : k₀ = k'
    · simp [setField, h0, lookupField, h]
    · by_cases hk : k₀ = k
      · simp [setField, h0, lookupField, hk, Ne.symm h]
      · simp [setField, h0, lookupField, hk, ih]

theorem lookupField_popField_ne (l : List (String × Json)) (k' k : String)
    (h : k' ≠ k) :
    lookupField (popField l k') k = lookupField l k := by
  induction l with
  | nil => simp [popField, lookupField]
  | cons p rest ih =>
    rcases p with ⟨k₀, v₀⟩
    by_cases h0 : k₀ = k'
    · simp [popField, h0, lookupField, h, ih]
    · by_cases hk : k₀ = k
      · simp [popField, h0, lookupField, hk, Ne.symm h]
      · simp [popField, h0, lookupField, hk, ih]

/-- Lookup behaviour of the final mutations of `resolve_character`: the
`prompts`, `aliases` and `avatar_url` assignments and the `secrets` pop do
not disturb the `system_prompt` binding, and the `prompts` binding is the
assigned bundle. -/
theorem tailLookups (l2 ps2 : List (String × Json)) (A U : Json) :
    lookupField (popField (setField (setField (setField l2 "prompts" (.obj ps2))
        "aliases" A) "avatar_url" U) "secrets") "system_prompt"
      = lookupField l2 "system_prompt" ∧
    lookupField (popField (setField (setField (setField l2 "prompts" (.obj ps2))
        "aliases" A) "avatar_url" U) "secrets") "prompts"
      = some (.obj ps2) := by
  constructor
  · rw [lookupField_popField_ne _ _ _ (by decide),
      lookupField_setField_ne _ _ _ _ (by decide),
      lookupField_setField_ne _ _ _ _ (by decide),
      lookupField_setField_ne _ _ _ _ (by decide)]
  · rw [lookupField_popField_ne _ _ _ (by decide),
      lookupField_setField_ne _ _ _ _ (by decide),
      lookupField_setField_ne _ _ _ _ (by decide),
      lookupField_setField_self]

/-- Structural fact about `resolve_character` on a record `.obj l`: the
returned record's `system_prompt` field, and the `system` slot of its
`prompts` bundle, are exactly `maybe_resolve_file` of the raw
`system_prompt` value against the prompt directory. -/
theorem resolve_character_system_lookup
    (l : List (String × Json)) (char_id : String) (pd ifd : Dir) (hostUrl : String) :
    objGet (resolve_character (.obj l) char_id pd ifd hostUrl) "system_prompt"
        = some (.str (maybe_resolve_file (objGet (.obj l) "system_prompt") pd)) ∧
    ∃ ps, objGet (resolve_character (.obj l) char_id pd ifd hostUrl) "prompts"
        = some (.obj ps) ∧
      lookupField ps "system"
        = some (.str (maybe_resolve_file (objGet (.obj l) "system_prompt") pd)) := by
  unfold resolve_character attach_avatar_url
  simp only [objGet, objSet, objPop]
  rw [lookupField_setField_ne _ _ _ _ (by decide : ("character_background" : String) ≠ "matrix"),
    lookupField_setField_ne _ _ _ _ (by decide : ("system_prompt" : String) ≠ "matrix")]
  rcases hM : lookupField l "matrix" with _ | j
  · simp only [hM]
    exact ⟨by rw [(tailLookups _ _ _ _).1,
        lookupField_setField_ne _ _ _ _ (by decide), lookupField_setField_self],
      _, (tailLookups _ _ _ _).2, by simp [lookupField]⟩
  · rcases j with _ | b | n | s | xs | m
    case obj =>
      simp only [hM]
      rcases hA : lookupField m "append_rules" with _ | j2
      · simp only [hA]
        exact ⟨by rw [(tailLookups _ _ _ _).1,
            lookupField_setField_ne _ _ _ _ (by decide),
            lookupField_setField_ne _ _ _ _ (by decide),
            lookupField_setField_self],
          _, (tailLookups _ _ _ _).2, by simp [lookupField]⟩
      · rcases j2 with _ | b2 | n2 | s2 | xs2 | m2
        case str =>
          simp only [hA]
          by_cases hblank : pyTrim s2 ≠ ""
          · simp only [if_pos hblank]
            exact ⟨by rw [(tailLookups _ _ _ _).1,
                lookupField_setField_ne _ _ _ _ (by decide),
                lookupField_setField_ne _ _ _ _ (by decide),
                lookupField_setField_self],
              _, (tailLookups _ _ _ _).2, by simp [lookupField]⟩
          · simp only [if_neg hblank]
            exact ⟨by rw [(tailLookups _ _ _ _).1,
                lookupField_setField_ne _ _ _ _ (by decide),
                lookupField_setField_ne _ _ _ _ (by decide),
                lookupField_setField_self],
              _, (tailLookups _ _ _ _).2, by simp [lookupField]⟩
        all_goals
          simp only [hA]
          exact ⟨by rw [(tailLookups _ _ _ _).1,
              lookupField_setField_ne _ _ _ _ (by decide),
              lookupField_setField_ne _ _ _ _ (by decide),
              lookupField_setField_self],
            _, (tailLookups _ _ _ _).2, by simp [lookupField]⟩
    all_goals
      simp only [hM]
      exact ⟨by rw [(tailLookups _ _ _ _).1,
          lookupField_setField_ne _ _ _ _ (by decide), lookupField_setField_self],
        _, (tailLookups _ _ _ _).2, by simp [lookupField]⟩

/-- C2 counterexample: a record whose `system_prompt` references the
missing file "ghost.txt" resolves without any error, and the resolved
`prompts.system` text is exactly the bare filename — `resolve_character`
passes it through as inline prompt content rather than failing. -/
theorem C2_counterexample :
    objGet (resolve_character (.obj [("system_prompt", .str "ghost.txt")]) "c"
        (fun _ => none) (fun _ => none) "") "prompts"
      = some (.obj [("system", .str "ghost.txt"), ("background", .str "")]) ∧
    objGet (resolve_character (.obj [("system_prompt", .str "ghost.txt")]) "c"
        (fun _ => none) (fun _ => none) "") "system_prompt"
      = some (.str "ghost.txt") := by
  exact ⟨rfl, rfl⟩

/-- C2 (amended): when the `system_prompt` field references a name absent
from the prompt directory, resolution does not fail; `maybe_resolve_file`
treats the value as inline text, so the resolved `system_prompt` field and
`prompts.system` slot are the stripped reference string itself — the bare
filename passed through as prompt content. -/
theorem C2_amended_missing_file_passthrough :
    ∀ (l : List (String × Json)) (char_id : String) (pd ifd : Dir)
      (hostUrl name : String),
      objGet (.obj l) "system_prompt" = some (.str name) →
      pyTrim name ≠ "" →
      pd (pyTrim name) = none →
      objGet (resolve_character (.obj l) char_id pd ifd hostUrl) "system_prompt"
          = some (.str (pyTrim name)) ∧
      ∃ ps, objGet (resolve_character (.obj l) char_id pd ifd hostUrl) "prompts"
          = some (.obj ps) ∧
        lookupField ps "system" = some (.str (pyTrim name)) := by
  intro l char_id pd ifd hostUrl name hsp hb hm
  have hsys : maybe_resolve_file (objGet (.obj l) "system_prompt") pd = pyTrim name := by
    rw [hsp]
    simp [maybe_resolve_file, hb, hm]
  have h := resolve_character_system_lookup l char_id pd ifd hostUrl
  rw [hsys] at h
  exact h

/-- Witness for C2's amended theorem at the counterexample's record. -/
theorem C2_witness :
    objGet (resolve_character (.obj [("system_prompt", .str "ghost2.txt")]) "c"
        (fun _ => none) (fun _ => none) "") "system_prompt"
      = some (.str "ghost2.txt") := by
  have h := C2_amended_missing_file_passthrough
    [("system_prompt", .str "ghost2.txt")] "c" (fun _ => none) (fun _ => none)
    "" "ghost2.txt" rfl (by decide) rfl
  exact (show pyTrim "ghost2.txt" = "ghost2.txt" from rfl) ▸ h.1

/-- C3 counterexample: a directory with one well-formed character
("alice") and one malformed configuration ("bob"): the `read_json` failure
for "bob" raises out of the listing loop, so `list_characters` aborts with
a 500 error and in particular does not return alice's record. -/
theorem C3_counterexample :
    list_characters ""
        [("alice", .ok (.obj [("name", .str "Alice")])),
         ("bob", .error "Expecting value")]
      = .error ⟨500, "Failed to parse bob.json: Expecting value"⟩ ∧
    list_characters ""
        [("alice", .ok (.obj [("name", .str "Alice")])),
         ("bob", .error "Expecting value")]
      ≠ .ok [listItem "" "alice" (.obj [("name", .str "Alice")])] := by
  refine ⟨rfl, ?_⟩
  intro h
  exact Except.noConfusion ((rfl :
    list_characters ""
        [("alice", .ok (.obj [("name", .str "Alice")])),
         ("bob", .error "Expecting value")]
      = .error ⟨500, "Failed to parse bob.json: Expecting value"⟩).symm.trans h)

/-- C3 (amended): a malformed configuration file is not confined to the
affected character — whenever any character file in the listing fails to
parse, the whole List operation aborts with a 500 `HTTPException`, and no
other character's record is returned. -/
theorem C3_amended_parse_error_aborts_listing :
    ∀ (hostUrl : String) (files : List (String × Except String Json))
      (stem e : String),
      (stem, Except.error e) ∈ files →
      ∃ he, list_characters hostUrl files = .error he ∧ he.status = 500 := by
  intro hostUrl files stem e hmem
  induction files with
  | nil => cases hmem
  | cons p rest ih =>
    rcases p with ⟨stem', parsed'⟩
    rcases parsed' with e' | j
    · refine ⟨⟨500, "Failed to parse " ++ (stem' ++ ".json") ++ ": " ++ e'⟩, ?_, rfl⟩
      simp [list_characters, read_json, Bind.bind, Except.bind]
    · have hmem' : (stem, Except.error e) ∈ rest := by
        rcases List.mem_cons.mp hmem with h | h
        · exact Except.noConfusion (congrArg Prod.snd h)
        · exact h
      obtain ⟨he, hrest, hstatus⟩ := ih hmem'
      refine ⟨he, ?_, hstatus⟩
      simp only [list_characters, read_json, hrest]
      rfl

/-- Witness for C3's amended theorem at the counterexample's directory. -/
theorem C3_witness :
    ∃ he, list_characters ""
        [("alice", .ok (.obj [("name", .str "Alice")])),
         ("bob", .error "boom")]
      = .error he ∧ he.status = 500 :=
  C3_amended_parse_error_aborts_listing ""
    [("alice", .ok (.obj [("name", .str "Alice")])), ("bob", .error "boom")]
    "bob" "boom" (List.Mem.tail _ (List.Mem.head _))

/-- C6: the `view=public` response body of `get_character` is computed
without resolving the prompt or background files at all — two runs against
directories with arbitrarily different file contents produce the identical
public body — and the body binds no `prompts`, `system_prompt` or
`character_background` field, so it cannot carry the private
`prompts.system` text. -/
theorem C6_public_view_isolation :
    ∀ (hostUrl char_id : String) (data : Json) (pd₁ id₁ pd₂ id₂ : Dir),
      get_character_body hostUrl char_id data .publicView pd₁ id₁
          = get_character_body hostUrl char_id data .publicView pd₂ id₂ ∧
      objGet (get_character_body hostUrl char_id data .publicView pd₁ id₁)
          "prompts" = none ∧
      objGet (get_character_body hostUrl char_id data .publicView pd₁ id₁)
          "system_prompt" = none ∧
      objGet (get_character_body hostUrl char_id data .publicView pd₁ id₁)
          "character_background" = none := by
  intro hostUrl char_id data pd₁ id₁ pd₂ id₂
  exact ⟨rfl, rfl, rfl, rfl⟩

theorem dedupeGo_sublist (l : List String) :
    ∀ seen, (dedupeGo seen l).Sublist l := by
  induction l with
  | nil => intro seen; simp [dedupeGo]
  | cons s rest ih =>
    intro seen
    by_cases h : pyLower s ∈ seen
    · simp only [dedupeGo, if_pos h]
      exact (ih seen).cons s
    · simp only [dedupeGo, if_neg h]
      exact (ih _).cons₂ s

theorem dedupeGo_covers (l : List String) :
    ∀ (seen : List String) (s : String), s ∈ l →
      pyLower s ∈ seen ∨ ∃ t ∈ dedupeGo seen l, pyLower t = pyLower s := by
  induction l with
  | nil => intro seen s hs; cases hs
  | cons a rest ih =>
    intro seen s hs
    by_cases h : pyLower a ∈ seen
    · rcases List.mem_cons.mp hs with rfl | hs'
      · exact Or.inl h
      · simpa only [dedupeGo, if_pos h] using ih seen s hs'
    · rcases List.mem_cons.mp hs with rfl | hs'
      · right
        exact ⟨s, by simp [dedupeGo, if_neg h], rfl⟩
      · rcases ih (pyLower a :: seen) s hs' with hseen | ⟨t, ht, hlow⟩
        · rcases List.mem_cons.mp hseen with heq | hseen'
          · right
            refine ⟨a, ?_, heq.symm⟩
            simp [dedupeGo, if_neg h]
          · exact Or.inl hseen'
        · right
          refine ⟨t, ?_, hlow⟩
          simp [dedupeGo, if_neg h, ht]

theorem dedupeGo_not_seen (l : List String) :
    ∀ (seen : List String) (t : String), t ∈ dedupeGo seen l →
      pyLower t ∉ seen := by
  induction l with
  | nil => intro seen t ht; simp [dedupeGo] at ht
  | cons a rest ih =>
    intro seen t ht
    by_cases h : pyLower a ∈ seen
    · simp only [dedupeGo, if_pos h] at ht
      exact ih seen t ht
    · simp only [dedupeGo, if_neg h] at ht
      rcases List.mem_cons.mp ht with rfl | ht'
      · exact h
      · intro hx
        exact (ih _ t ht') (List.mem_cons_of_mem _ hx)

theorem dedupeGo_pairwise (l : List String) :
    ∀ seen, (dedupeGo seen l).Pairwise (fun a b => pyLower a ≠ pyLower b) := by
  induction l with
  | nil => intro seen; simp [dedupeGo]
  | cons a rest ih =>
    intro seen
    by_cases h : pyLower a ∈ seen
    · simp only [dedupeGo, if_pos h]
      exact ih seen
    · simp only [dedupeGo, if_neg h]
      refine List.Pairwise.cons ?_ (ih _)
      intro b hb hab
      exact (dedupeGo_not_seen rest _ b hb) (hab ▸ List.mem_cons_self _ _)

/-- C7: `build_aliases` collects name, nickname, explicit alias lists, the
matrix block's aliases and the id, and deduplicates case-insensitively:
the example record (name "Cat", nickname "Cat", id "cat") yields exactly
["Cat"]; in general the result always contains an entry equal to the id
up to case, is a sublist of the collected aliases (first-seen casing and
order preserved), and contains no two entries equal up to case. -/
theorem C7_build_aliases_dedupe :
    build_aliases (.obj [("name", .str "Cat"), ("nickname", .str "Cat")]) "cat"
        = ["Cat"] ∧
    (∀ (data : Json) (char_id : String),
      ∃ t ∈ build_aliases data char_id, pyLower t = pyLower char_id) ∧
    (∀ (data : Json) (char_id : String),
      (build_aliases data char_id).Sublist (collectAliases data char_id)) ∧
    (∀ (data : Json) (char_id : String),
      (build_aliases data char_id).Pairwise (fun a b => pyLower a ≠ pyLower b)) := by
  refine ⟨by decide, ?_, ?_, ?_⟩
  · intro data char_id
    have hmem : char_id ∈ collectAliases data char_id := by
      simp [collectAliases]
    rcases dedupeGo_covers (collectAliases data char_id) [] char_id hmem with
      h | ⟨t, ht, hlow⟩
    · cases h
    · exact ⟨t, ht, hlow⟩
  · intro data char_id
    exact dedupeGo_sublist _ []
  · intro data char_id
    exact dedupeGo_pairwise _ []

theorem containsSubGo_here (pat l : List Char) (h : pat.isPrefixOf l = true) :
    containsSubGo pat l = true := by
  cases l with
  | nil => simpa [containsSubGo] using h
  | cons c rest => simp [containsSubGo, h]

theorem containsSubGo_there (pat : List Char) (c : Char) (l : List Char)
    (h : containsSubGo pat l = true) : containsSubGo pat (c :: l) = true := by
  simp [containsSubGo, h]

theorem containsSubGo_complete (pat s t : List Char) :
    containsSubGo pat (s ++ pat ++ t) = true := by
  induction s with
  | nil =>
    apply containsSubGo_here
    exact List.isPrefixOf_iff_prefix.mpr ⟨t, rfl⟩
  | cons c s' ih =>
    simp only [List.cons_append]
    exact containsSubGo_there _ _ _ ih

/-- C8: a request whose avatar filename is empty, or contains "/" or "\\"
or a ".." occurrence (in particular any ".." traversal component), fails
`safe_filename`; every such request is rejected by `get_avatar` with a 400
client error whose outcome is the same for every state of the avatar
directory (no filesystem access); only validated filenames reach the
avatar directory lookup (which then yields 404 when absent). -/
theorem C8_avatar_filename_validation :
    (∀ name : String,
      name = "" ∨ List.IsInfix ("/").data name.data ∨
        List.IsInfix ("\\").data name.data ∨ List.IsInfix ("..").data name.data →
      safe_filename name = false) ∧
    (∀ (name : String) (inm : Option String) (avatarDir : String → Option FileMeta),
      safe_filename name = false →
      get_avatar name inm avatarDir = .error ⟨400, "Invalid filename"⟩) ∧
    (∀ (name : String) (inm : Option String) (avatarDir : String → Option FileMeta),
      safe_filename name = true → avatarDir name = none →
      get_avatar name inm avatarDir = .error ⟨404, "Avatar not found"⟩) := by
  refine ⟨?_, ?_, ?_⟩
  · intro name h
    rcases h with rfl | h | h | h
    · decide
    · obtain ⟨s, t, hst⟩ := h
      have hc : containsSub name "/" = true := by
        show containsSubGo ("/").data name.data = true
        rw [← hst]
        exact containsSubGo_complete _ _ _
      simp [safe_filename, hc]
    · obtain ⟨s, t, hst⟩ := h
      have hc : containsSub name "\\" = true := by
        show containsSubGo ("\\").data name.data = true
        rw [← hst]
        exact containsSubGo_complete _ _ _
      simp [safe_filename, hc]
    · obtain ⟨s, t, hst⟩ := h
      have hc : containsSub name ".." = true := by
        show containsSubGo ("..").data name.data = true
        rw [← hst]
        exact containsSubGo_complete _ _ _
      simp [safe_filename, hc]
  · intro name inm avatarDir h
    simp [get_avatar, h]
  · intro name inm avatarDir h hdir
    simp [get_avatar, h, hdir]

/-- Witness for C8: the traversal name "../x" is rejected with 400 for an
arbitrary directory state, and a validated name reaches the lookup. -/
theorem C8_witness :
    safe_filename "../x" = false ∧
    get_avatar "../x" none (fun _ => none) = .error ⟨400, "Invalid filename"⟩ ∧
    get_avatar "ok.png" none (fun _ => none) = .error ⟨404, "Avatar not found"⟩ := by
  have h1 := C8_avatar_filename_validation.1 "../x"
    (Or.inr (Or.inr (Or.inr ⟨[], ['/', 'x'], rfl⟩)))
  exact ⟨h1, C8_avatar_filename_validation.2.1 "../x" none (fun _ => none) h1,
    C8_avatar_filename_validation.2.2 "ok.png" none (fun _ => none) (by decide) rfl⟩

end CathyAI
